import Mathlib

/-!
Verification development for the CYRO spatial risk scoring system
(bhoomipatni/cyro). The repository ships the React frontend under
src/frontend; the backend Spatial Risk Scoring Engine
(backend/app/services/risk_calculator.py, backend/app/api/endpoints.py and
the spatial index) is referenced by the frontend and the README but its
source is not part of the repository snapshot, so those components are
modelled from the specification (each such definition is marked
`Modelled from the spec:`). Frontend components (HeatmapLayer.jsx,
RiskTrendChart.jsx, ControlPanel.jsx, MapView.jsx, RiskZonesLayer.jsx)
are embedded directly from their source. Real-valued quantities are
embedded as rationals.
-/

/-- Modelled from the spec: a Cell of the Spatial Index (backend spatial
index not under src/). Identity is a stable integer key; centroid is
(lat, lon). The cell set is static; only feature values mutate. -/
structure Cell where
  id : Nat
  lat : Rat
  lon : Rat
deriving DecidableEq

/-- Modelled from the spec: the scoring state consumed by the Scoring
Engine (backend risk_calculator.py not under src/): the expected feature
names, the weight configuration (feature name → signed coefficient), the
feature store (cell id → feature name → value, default 0 when
unmeasured), and the hour-of-day (0–23) multiplier table. -/
structure Engine where
  featureNames : List String
  weight : String → Rat
  featureOf : Nat → String → Rat
  timeMult : Nat → Rat

/-- Modelled from the spec: hour of day extracted from a timestamp.
Timestamps are embedded as seconds; hourOf wraps at midnight. -/
def hourOf (ts : Nat) : Nat := ts / 3600 % 24

/-- Modelled from the spec: `rawScore = Σ_feature weight[feature] ×
featureValue[feature]` (Scoring Engine, §4.3 of the spec; backend source
not under src/). -/
def rawScore (e : Engine) (cid : Nat) : Rat :=
  (e.featureNames.map (fun f => e.weight f * e.featureOf cid f)).sum

/-- Modelled from the spec: the time-adjusted score, `rawScore ×
timeMultiplier[hourOf(timestamp)]`. -/
def adjScore (e : Engine) (cid ts : Nat) : Rat :=
  rawScore e cid * e.timeMult (hourOf ts)

/-- Modelled from the spec: `attributionByFeature[feature] =
weight[feature] × featureValue[feature] × timeMultiplier[hourOf ts]`. -/
def attributionByFeature (e : Engine) (cid ts : Nat) : List (String × Rat) :=
  e.featureNames.map
    (fun f => (f, e.weight f * e.featureOf cid f * e.timeMult (hourOf ts)))

/-- Claim C1: for every cell and timestamp, the per-feature attribution
values produced by scoring sum exactly to the time-adjusted score, where
each attribution entry equals weight × featureValue × timeMultiplier of
the hour of the timestamp. Over the rational embedding the sum is exact
(the spec's floating-point tolerance is not needed). -/
theorem attribution_sums_to_adjusted_score (e : Engine) (cid ts : Nat) :
    ((attributionByFeature e cid ts).map Prod.snd).sum = adjScore e cid ts := by
  unfold attributionByFeature adjScore rawScore
  rw [List.map_map]
  rw [show ((fun p : String × Rat => p.snd) ∘
      fun f => (f, e.weight f * e.featureOf cid f * e.timeMult (hourOf ts)))
      = fun f => (e.weight f * e.featureOf cid f) * e.timeMult (hourOf ts) from rfl]
  exact List.sum_map_mul_right _ _ _

/-- A zone record as consumed by the frontend layers: centroid and the
normalized risk score received from the backend
(frontend/src/components/HeatmapLayer.jsx, RiskTrendChart.jsx). -/
structure ZoneData where
  center_lat : Rat
  center_lon : Rat
  risk_score : Rat
deriving DecidableEq

/-- HeatmapLayer.jsx: `intensity = Math.max(0, Math.min(zone.risk_score
/ 100, 1))`. -/
def intensity (score : Rat) : Rat := max 0 (min (score / 100) 1)

/-- HeatmapLayer.jsx: `heatmapPoints = zones.map(zone => [zone.center_lat,
zone.center_lon, intensity])`. -/
def heatmapPoints (zones : List ZoneData) : List (Rat × Rat × Rat) :=
  zones.map (fun z => (z.center_lat, z.center_lon, intensity z.risk_score))

/-- Claim C9: for every zone in the heatmap input, regardless of the
risk_score value received from the backend (including values below 0 or
above 100), the computed heatmap intensity is clamped into [0, 1]; the
heatmap rendering is total over arbitrary numeric scores. -/
theorem heatmap_intensity_clamped (zones : List ZoneData)
    (pt : Rat × Rat × Rat) (h : pt ∈ heatmapPoints zones) :
    0 ≤ pt.2.2 ∧ pt.2.2 ≤ 1 := by
  rcases List.mem_map.mp h with ⟨z, _, rfl⟩
  constructor
  · exact le_max_left 0 _
  · exact max_le (by norm_num) (min_le_right _ 1)

/-- Witness for C9 at a backend score of 250 (above the documented 0–100
range): the clamped intensity is 1 and lies in [0, 1]. -/
theorem heatmap_intensity_clamped_witness :
    0 ≤ ((42 : Rat), (-73 : Rat), (1 : Rat)).2.2 ∧
      ((42 : Rat), (-73 : Rat), (1 : Rat)).2.2 ≤ 1 :=
  heatmap_intensity_clamped [⟨42, -73, 250⟩] (42, -73, 1) (by
    unfold heatmapPoints intensity
    simp only [List.map_cons, List.map_nil, List.mem_cons]
    left
    norm_num)

/-- RiskTrendChart.jsx: squared planar distance used to pick the closest
zone. The source compares `Math.hypot(Δlat, Δlon)` values; hypot is
strictly monotone in the sum of squares, so the comparison is embedded
on squared distances. -/
def zoneDist2 (lat lon : Rat) (z : ZoneData) : Rat :=
  (z.center_lat - lat) ^ 2 + (z.center_lon - lon) ^ 2

/-- RiskTrendChart.jsx: `res.data.reduce((prev, curr) => currDist <
prevDist ? curr : prev)` — JavaScript reduce without an initial value
starts from the first element, which is passed here as `z0`. -/
def closestZone (lat lon : Rat) (z0 : ZoneData) (zs : List ZoneData) : ZoneData :=
  zs.foldl (fun prev curr =>
    if zoneDist2 lat lon curr < zoneDist2 lat lon prev then curr else prev) z0

/-- RiskTrendChart.jsx, one hour of the 24-hour trend: a failed request
(`.catch`) or an empty response body yields `risk: 0`; otherwise the risk
is `Math.round` of the closest zone's risk_score (Math.round rounds half
up, as does Mathlib's `round` on rationals). The hour label string is a
fixed rendering of `hour` and is not modelled. -/
def trendPoint (lat lon : Rat) (hour : Nat) (resp : Option (List ZoneData)) :
    Nat × Int :=
  match resp with
  | none => (hour, 0)
  | some [] => (hour, 0)
  | some (z :: zs) => (hour, round (closestZone lat lon z zs).risk_score)

/-- RiskTrendChart.jsx: `Array.from({ length: 24 }, (_, hour) => ...)`
builds one data point per hour 0–23; `resp` gives each hour's response
(`none` models a failed request). -/
def fetchRiskTrend (lat lon : Rat) (resp : Nat → Option (List ZoneData)) :
    List (Nat × Int) :=
  (List.range 24).map (fun h => trendPoint lat lon h (resp h))

/-- The hour component of a trend point is the requested hour in every
branch of trendPoint. -/
theorem trendPoint_fst (lat lon : Rat) (hour : Nat)
    (resp : Option (List ZoneData)) : (trendPoint lat lon hour resp).1 = hour := by
  cases resp with
  | none => rfl
  | some l => cases l <;> rfl

/-- Claim C10: for every location, the 24-hour risk trend computation
yields exactly 24 data points, one per hour 0 through 23 in ascending
order, and a failed (none) or empty per-hour response yields a data
point with risk 0 rather than propagating an error or omitting the
hour. -/
theorem risk_trend_24_points (lat lon : Rat)
    (resp : Nat → Option (List ZoneData)) :
    (fetchRiskTrend lat lon resp).length = 24 ∧
    (fetchRiskTrend lat lon resp).map Prod.fst = List.range 24 ∧
    (∀ h, h < 24 → resp h = none ∨ resp h = some [] →
      (h, (0 : Int)) ∈ fetchRiskTrend lat lon resp) := by
  refine ⟨by simp [fetchRiskTrend], ?_, ?_⟩
  · unfold fetchRiskTrend
    rw [List.map_map]
    have : ((Prod.fst ∘ fun h => trendPoint lat lon h (resp h)) : Nat → Nat)
        = fun h => h := by
      funext h
      exact trendPoint_fst lat lon h (resp h)
    rw [this]
    exact List.map_id _
  · intro h hlt hfail
    unfold fetchRiskTrend
    apply List.mem_map.mpr
    refine ⟨h, List.mem_range.mpr hlt, ?_⟩
    rcases hfail with hf | hf <;> rw [hf] <;> rfl

/-- Witness for C10 with every per-hour request failing: hour 0 is
reported with risk 0, the chart has 24 points with hours 0–23. -/
theorem risk_trend_24_points_witness :
    (fetchRiskTrend 0 0 (fun _ => none)).length = 24 ∧
    (fetchRiskTrend 0 0 (fun _ => none)).map Prod.fst = List.range 24 ∧
    (∀ h, h < 24 → (fun _ : Nat => (none : Option (List ZoneData))) h = none ∨
      (fun _ : Nat => (none : Option (List ZoneData))) h = some [] →
      (h, (0 : Int)) ∈ fetchRiskTrend 0 0 (fun _ => none)) :=
  risk_trend_24_points 0 0 (fun _ => none)

/-- Modelled from the spec: strict "closer" comparison used by the
nearest-cell search — nearer by distance, or equally near with a lower
cell identity (the spec's deterministic tie-break). `d` is the
great-circle distance function; the haversine formula itself is
transcendental, so it is kept as a parameter and the spatial-index
claims are proved for every distance function. -/
def closerCell (d : Rat × Rat → Rat × Rat → Rat) (p : Rat × Rat)
    (a b : Cell) : Prop :=
  d p (a.lat, a.lon) < d p (b.lat, b.lon) ∨
    (d p (a.lat, a.lon) = d p (b.lat, b.lon) ∧ a.id < b.id)

instance (d : Rat × Rat → Rat × Rat → Rat) (p : Rat × Rat) (a b : Cell) :
    Decidable (closerCell d p a b) := by
  unfold closerCell
  infer_instance

/-- Non-strict version of closerCell: at most as far, with identity
tie-break. -/
def cellLe (d : Rat × Rat → Rat × Rat → Rat) (p : Rat × Rat)
    (a b : Cell) : Prop :=
  d p (a.lat, a.lon) < d p (b.lat, b.lon) ∨
    (d p (a.lat, a.lon) = d p (b.lat, b.lon) ∧ a.id ≤ b.id)

/-- Modelled from the spec: `nearestCell(point) -> Cell` of the Spatial
Index (backend source not under src/): scan the static cell set keeping
the closest cell seen so far, replacing the candidate only when the next
cell is strictly closer under the (distance, identity) tie-break order.
Returns none only for an empty cell set. -/
def nearestCell (d : Rat × Rat → Rat × Rat → Rat) (cells : List Cell)
    (p : Rat × Rat) : Option Cell :=
  match cells with
  | [] => none
  | c :: cs => some (cs.foldl (fun b x => if closerCell d p x b then x else b) c)

theorem cellLe_refl (d : Rat × Rat → Rat × Rat → Rat) (p : Rat × Rat)
    (a : Cell) : cellLe d p a a :=
  Or.inr ⟨rfl, le_refl _⟩

theorem cellLe_trans (d : Rat × Rat → Rat × Rat → Rat) (p : Rat × Rat)
    {a b c : Cell} (h1 : cellLe d p a b) (h2 : cellLe d p b c) :
    cellLe d p a c := by
  rcases h1 with h1 | ⟨h1e, h1i⟩ <;> rcases h2 with h2 | ⟨h2e, h2i⟩
  · exact Or.inl (lt_trans h1 h2)
  · exact Or.inl (h2e ▸ h1)
  · exact Or.inl (h1e ▸ h2)
  · exact Or.inr ⟨h1e.trans h2e, le_trans h1i h2i⟩

theorem cellLe_of_not_closer (d : Rat × Rat → Rat × Rat → Rat)
    (p : Rat × Rat) {a b : Cell} (h : ¬ closerCell d p a b) :
    cellLe d p b a := by
  unfold closerCell at h
  push_neg at h
  rcases lt_trichotomy (d p (a.lat, a.lon)) (d p (b.lat, b.lon)) with hlt | heq | hgt
  · exact absurd hlt (not_lt.mpr h.1)
  · exact Or.inr ⟨heq.symm, h.2 heq⟩
  · exact Or.inl hgt

theorem cellLe_of_closer (d : Rat × Rat → Rat × Rat → Rat)
    (p : Rat × Rat) {a b : Cell} (h : closerCell d p a b) :
    cellLe d p a b := by
  rcases h with h | ⟨he, hi⟩
  · exact Or.inl h
  · exact Or.inr ⟨he, le_of_lt hi⟩

/-- The fold inside nearestCell returns an element among the initial
candidate and the scanned cells that is a lower bound of all of them
under the (distance, identity) order. -/
theorem foldl_nearest_spec (d : Rat × Rat → Rat × Rat → Rat)
    (p : Rat × Rat) (cs : List Cell) : ∀ b : Cell,
    (cs.foldl (fun b x => if closerCell d p x b then x else b) b = b ∨
      cs.foldl (fun b x => if closerCell d p x b then x else b) b ∈ cs) ∧
    cellLe d p (cs.foldl (fun b x => if closerCell d p x b then x else b) b) b ∧
    ∀ x ∈ cs,
      cellLe d p (cs.foldl (fun b x => if closerCell d p x b then x else b) b) x := by
  induction cs with
  | nil =>
    intro b
    exact ⟨Or.inl rfl, cellLe_refl d p b, fun x hx => absurd hx (List.not_mem_nil x)⟩
  | cons c cs ih =>
    intro b
    simp only [List.foldl_cons]
    by_cases hc : closerCell d p c b
    · rw [if_pos hc]
      obtain ⟨hmem, hle, hall⟩ := ih c
      refine ⟨?_, ?_, ?_⟩
      · rcases hmem with h | h
        · exact Or.inr (by rw [h]; exact List.mem_cons_self c cs)
        · exact Or.inr (List.mem_cons_of_mem c h)
      · exact cellLe_trans d p hle (cellLe_of_closer d p hc)
      · intro x hx
        rcases List.mem_cons.mp hx with rfl | hx
        · exact hle
        · exact hall x hx
    · rw [if_neg hc]
      obtain ⟨hmem, hle, hall⟩ := ih b
      refine ⟨?_, hle, ?_⟩
      · rcases hmem with h | h
        · exact Or.inl h
        · exact Or.inr (List.mem_cons_of_mem c h)
      · intro x hx
        rcases List.mem_cons.mp hx with rfl | hx
        · exact cellLe_trans d p hle (cellLe_of_not_closer d p hc)
        · exact hall x hx

/-- Claim C4: for every point and fixed cell set, nearestCell returns a
cell of the set minimizing the distance to the point, breaking distance
ties by lowest cell identity, and repeated calls with identical input
return the same cell id (the embedding is a pure function, so
determinism is definitional). -/
theorem nearestCell_minimizes (d : Rat × Rat → Rat × Rat → Rat)
    (cells : List Cell) (p : Rat × Rat) (h : cells ≠ []) :
    ∃ c, nearestCell d cells p = some c ∧ c ∈ cells ∧
      (∀ c' ∈ cells, d p (c.lat, c.lon) ≤ d p (c'.lat, c'.lon)) ∧
      (∀ c' ∈ cells, d p (c'.lat, c'.lon) = d p (c.lat, c.lon) → c.id ≤ c'.id) ∧
      (∀ c1 c2, nearestCell d cells p = some c1 →
        nearestCell d cells p = some c2 → c1.id = c2.id) := by
  match cells with
  | [] => exact absurd rfl h
  | c :: cs =>
    obtain ⟨hmem, hle, hall⟩ := foldl_nearest_spec d p cs c
    set r := cs.foldl (fun b x => if closerCell d p x b then x else b) c with hr
    have hrmem : r ∈ c :: cs := by
      rcases hmem with hm | hm
      · exact hm ▸ List.mem_cons_self c cs
      · exact List.mem_cons_of_mem c hm
    have hrle : ∀ c' ∈ c :: cs, cellLe d p r c' := by
      intro c' hc'
      rcases List.mem_cons.mp hc' with rfl | hc'
      · exact hle
      · exact hall c' hc'
    refine ⟨r, rfl, hrmem, ?_, ?_, ?_⟩
    · intro c' hc'
      rcases hrle c' hc' with hlt | ⟨heq, _⟩
      · exact le_of_lt hlt
      · exact le_of_eq heq
    · intro c' hc' heq
      rcases hrle c' hc' with hlt | ⟨_, hi⟩
      · exact absurd hlt (by rw [heq]; exact lt_irrefl _)
      · exact hi
    · intro c1 c2 h1 h2
      rw [h1] at h2
      rw [Option.some_inj.mp h2]

/-- Modelled from the spec: the configured rectangular region boundary
(min/max latitude and longitude); backend config not under src/. -/
structure Region where
  minLat : Rat
  maxLat : Rat
  minLon : Rat
  maxLon : Rat
deriving DecidableEq

/-- A point lies inside (or on) the configured region boundary. -/
def inRegion (reg : Region) (p : Rat × Rat) : Prop :=
  reg.minLat ≤ p.1 ∧ p.1 ≤ reg.maxLat ∧ reg.minLon ≤ p.2 ∧ p.2 ≤ reg.maxLon

instance (reg : Region) (p : Rat × Rat) : Decidable (inRegion reg p) := by
  unfold inRegion
  infer_instance

/-- A point lies exactly on an edge of the region boundary. -/
def onBoundaryEdge (reg : Region) (p : Rat × Rat) : Prop :=
  inRegion reg p ∧ (p.1 = reg.minLat ∨ p.1 = reg.maxLat ∨
    p.2 = reg.minLon ∨ p.2 = reg.maxLon)

instance (reg : Region) (p : Rat × Rat) : Decidable (onBoundaryEdge reg p) := by
  unfold onBoundaryEdge
  infer_instance

/-- Claim C5: for every point that is outside the configured region
boundary or exactly on a boundary edge, the nearest-cell operation still
returns a valid nearest cell (a member of the cell set) and never fails;
there is no hard region-boundary rejection. The position hypothesis is
never consulted: nearestCell is total in the point for any non-empty
cell set. -/
theorem nearestCell_no_boundary_rejection (d : Rat × Rat → Rat × Rat → Rat)
    (reg : Region) (cells : List Cell) (p : Rat × Rat) (hcells : cells ≠ [])
    (_hp : ¬ inRegion reg p ∨ onBoundaryEdge reg p) :
    ∃ c, nearestCell d cells p = some c ∧ c ∈ cells := by
  obtain ⟨c, hsome, hmem, -, -, -⟩ := nearestCell_minimizes d cells p hcells
  exact ⟨c, hsome, hmem⟩

/-- Modelled from the spec: the ordinal risk tier of the Normalizer /
Classifier (backend source not under src/); Legend.jsx renders exactly
these three levels. -/
inductive Tier where
  | Low : Tier
  | Medium : Tier
  | High : Tier
deriving DecidableEq

/-- Modelled from the spec: the classification order on scored cells —
ascending by time-adjusted score, ties broken by cell identity (the
spec's deterministic tie-break "by score then cell identity"). -/
def scoreIdLe (a b : Cell × Rat) : Prop :=
  a.2 < b.2 ∨ (a.2 = b.2 ∧ a.1.id ≤ b.1.id)

instance : DecidableRel scoreIdLe := fun a b => by
  unfold scoreIdLe
  infer_instance

/-- Modelled from the spec: the scored cell population sorted for
percentile classification. -/
def sortScored (l : List (Cell × Rat)) : List (Cell × Rat) :=
  List.insertionSort scoreIdLe l

/-- Modelled from the spec: tier of the cell of rank `i` (0-based, by
ascending score) in a population of `n` cells: the lowest third is Low,
the next third Medium, the top remainder High. -/
def tierOfRank (i n : Nat) : Tier :=
  if 3 * i < n then Tier.Low else if 3 * i < 2 * n then Tier.Medium else Tier.High

/-- Modelled from the spec: tier assignment over the full cell
population — sort all scored cells and bucket them by rank tercile. -/
def assignTiers (l : List (Cell × Rat)) : List (Cell × Tier) :=
  (sortScored l).enum.map
    (fun ic => (ic.2.1, tierOfRank ic.1 (sortScored l).length))

/-- Number of cells assigned a given tier. -/
def countTier (t : Tier) (l : List (Cell × Rat)) : Nat :=
  (assignTiers l).countP (fun e => decide (e.2 = t))

theorem length_sortScored (l : List (Cell × Rat)) :
    (sortScored l).length = l.length :=
  List.length_insertionSort scoreIdLe l

theorem countTier_eq_rank_count (t : Tier) (l : List (Cell × Rat)) :
    countTier t l = (List.range l.length).countP
      (fun i => decide (tierOfRank i l.length = t)) := by
  unfold countTier assignTiers
  rw [List.countP_map]
  have h1 : ((fun e : Cell × Tier => decide (e.2 = t)) ∘
      (fun ic : Nat × (Cell × Rat) =>
        (ic.2.1, tierOfRank ic.1 (sortScored l).length)))
      = (fun i : Nat => decide (tierOfRank i (sortScored l).length = t)) ∘
        Prod.fst := rfl
  rw [h1, ← List.countP_map, List.enum_map_fst, length_sortScored]

/-- Counting the members of `range n` inside the interval [a, b). -/
theorem countP_range_interval (a b n : Nat) :
    (List.range n).countP (fun i => decide (a ≤ i ∧ i < b))
      = min b n - min a n := by
  induction n with
  | zero => simp
  | succ n ih =>
    rw [List.range_succ, List.countP_append, ih]
    simp only [List.countP_cons, List.countP_nil, Nat.zero_add]
    by_cases h : a ≤ n ∧ n < b
    · rw [if_pos (by simpa using h)]
      omega
    · rw [if_neg (by simpa using h)]
      omega

theorem tierOfRank_low_iff (i n : Nat) :
    tierOfRank i n = Tier.Low ↔ 3 * i < n := by
  unfold tierOfRank
  split_ifs with h1 h2
  · exact iff_of_true rfl h1
  · exact iff_of_false (by decide) h1
  · exact iff_of_false (by decide) h1

theorem tierOfRank_medium_iff (i n : Nat) :
    tierOfRank i n = Tier.Medium ↔ (n ≤ 3 * i ∧ 3 * i < 2 * n) := by
  unfold tierOfRank
  split_ifs with h1 h2
  · exact iff_of_false (by decide) (by omega)
  · exact iff_of_true rfl ⟨by omega, h2⟩
  · exact iff_of_false (by decide) (by omega)

theorem tierOfRank_high_iff (i n : Nat) :
    tierOfRank i n = Tier.High ↔ 2 * n ≤ 3 * i := by
  unfold tierOfRank
  split_ifs with h1 h2
  · exact iff_of_false (by decide) (by omega)
  · exact iff_of_false (by decide) (by omega)
  · exact iff_of_true rfl (by omega)

theorem countTier_low (l : List (Cell × Rat)) (h : 1 ≤ l.length) :
    countTier Tier.Low l = (l.length + 2) / 3 := by
  rw [countTier_eq_rank_count]
  rw [List.countP_congr (q := fun i => decide (0 ≤ i ∧ i < (l.length + 2) / 3))
    (fun i _ => by
      simp only [decide_eq_true_iff, tierOfRank_low_iff]
      omega)]
  rw [countP_range_interval]
  omega

theorem countTier_medium (l : List (Cell × Rat)) (h : 2 ≤ l.length) :
    countTier Tier.Medium l
      = (2 * l.length + 2) / 3 - (l.length + 2) / 3 := by
  rw [countTier_eq_rank_count]
  rw [List.countP_congr
    (q := fun i => decide ((l.length + 2) / 3 ≤ i ∧ i < (2 * l.length + 2) / 3))
    (fun i _ => by
      simp only [decide_eq_true_iff, tierOfRank_medium_iff]
      omega)]
  rw [countP_range_interval]
  omega

theorem countTier_high (l : List (Cell × Rat)) (h : 2 ≤ l.length) :
    countTier Tier.High l = l.length - (2 * l.length + 2) / 3 := by
  rw [countTier_eq_rank_count]
  rw [List.countP_congr
    (q := fun i => decide ((2 * l.length + 2) / 3 ≤ i ∧ i < l.length))
    (fun i hi => by
      simp only [decide_eq_true_iff, tierOfRank_high_iff]
      have := List.mem_range.mp hi
      omega)]
  rw [countP_range_interval]
  omega

theorem assignTiers_map_fst (l : List (Cell × Rat)) :
    (assignTiers l).map Prod.fst = (sortScored l).map Prod.fst := by
  unfold assignTiers
  rw [List.map_map]
  have h1 : (Prod.fst ∘ fun ic : Nat × (Cell × Rat) =>
      (ic.2.1, tierOfRank ic.1 (sortScored l).length))
      = Prod.fst ∘ Prod.snd := rfl
  rw [h1, ← List.map_map, List.enum_map_snd]

/-- The spec's worked example: a region of exactly 3 cells with raw
scores [10, 50, 90]. -/
def exampleThreeCells : List (Cell × Rat) :=
  [(⟨1, 0, 0⟩, 10), (⟨2, 0, 0⟩, 50), (⟨3, 0, 0⟩, 90)]

/-- Claim C2: for every scored population, tier assignment over the full
cell population partitions it into three non-empty groups (population at
least 3), each group's size within one unit of population/3 (stated as
`|3·count − n| ≤ 3`), the assignment being a permutation of the
population with ties broken deterministically by score then cell
identity (the classification order `scoreIdLe`); and the spec's example
of 3 cells with raw scores [10, 50, 90] yields Low, Medium, High
respectively. -/
theorem tier_partition_terciles (l : List (Cell × Rat)) (h3 : 3 ≤ l.length) :
    (1 ≤ countTier Tier.Low l ∧ 1 ≤ countTier Tier.Medium l ∧
      1 ≤ countTier Tier.High l) ∧
    (∀ t : Tier, l.length ≤ 3 * countTier t l + 3 ∧
      3 * countTier t l ≤ l.length + 3) ∧
    countTier Tier.Low l + countTier Tier.Medium l + countTier Tier.High l
      = l.length ∧
    ((assignTiers l).map Prod.fst).Perm (l.map Prod.fst) ∧
    assignTiers exampleThreeCells =
      [(⟨1, 0, 0⟩, Tier.Low), (⟨2, 0, 0⟩, Tier.Medium),
        (⟨3, 0, 0⟩, Tier.High)] := by
  have hlow := countTier_low l (by omega)
  have hmed := countTier_medium l (by omega)
  have hhigh := countTier_high l (by omega)
  refine ⟨⟨by omega, by omega, by omega⟩, ?_, by omega, ?_, by decide⟩
  · intro t
    cases t
    · rw [hlow]; omega
    · rw [hmed]; omega
    · rw [hhigh]; omega
  · rw [assignTiers_map_fst]
    exact (List.perm_insertionSort scoreIdLe l).map Prod.fst

/-- Witness for C2 at the spec's 3-cell example population: the Low
group is non-empty and the example tiers come out as Low, Medium, High. -/
theorem tier_partition_terciles_witness :
    1 ≤ countTier Tier.Low exampleThreeCells ∧
    assignTiers exampleThreeCells =
      [(⟨1, 0, 0⟩, Tier.Low), (⟨2, 0, 0⟩, Tier.Medium),
        (⟨3, 0, 0⟩, Tier.High)] :=
  ⟨(tier_partition_terciles exampleThreeCells (by decide)).1.1,
    (tier_partition_terciles exampleThreeCells (by decide)).2.2.2.2⟩

/-- Modelled from the spec: the prediction timestamp used by a query —
the given timestamp, or, when omitted, one hour (3600 seconds) after the
current time at query evaluation. -/
def effectiveTimestamp (now : Nat) : Option Nat → Nat
  | none => now + 3600
  | some ts => ts

/-- Modelled from the spec: the full cell population paired with its
time-adjusted scores at a prediction timestamp. -/
def scoredCells (e : Engine) (cells : List Cell) (ts : Nat) :
    List (Cell × Rat) :=
  cells.map (fun c => (c, adjScore e c.id ts))

/-- Modelled from the spec: the radius predicate of `queryZones` — the
cell centroid's distance to the query center is at most the requested
radius (distance function abstracted, as for nearestCell). -/
def withinRadius (d : Rat × Rat → Rat × Rat → Rat) (center : Rat × Rat)
    (r : Rat) (c : Cell) : Bool :=
  decide (d center (c.lat, c.lon) ≤ r)

/-- Modelled from the spec: `queryZones(center, radiusMiles, timestamp?)`
— tiers are classified over the full cell population, and only then is
the spatial subset within the radius returned. -/
def queryZones (e : Engine) (d : Rat × Rat → Rat × Rat → Rat)
    (cells : List Cell) (center : Rat × Rat) (r : Rat) (now : Nat)
    (tsOpt : Option Nat) : List (Cell × Tier) :=
  (assignTiers (scoredCells e cells (effectiveTimestamp now tsOpt))).filter
    (fun ct => withinRadius d center r ct.1)

/-- Modelled from the spec: a full-region query — the same tier
assignment with no spatial filter (RiskZonesLayer.jsx issues this as a
radius-50 query covering the whole region). -/
def queryZonesFull (e : Engine) (cells : List Cell) (now : Nat)
    (tsOpt : Option Nat) : List (Cell × Tier) :=
  assignTiers (scoredCells e cells (effectiveTimestamp now tsOpt))

theorem scoredCells_map_fst (e : Engine) (cells : List Cell) (ts : Nat) :
    (scoredCells e cells ts).map Prod.fst = cells := by
  unfold scoredCells
  rw [List.map_map]
  exact List.map_id cells

/-- The cell identities carried by a full query are exactly the
population's identities, up to permutation. -/
theorem queryZonesFull_ids_perm (e : Engine) (cells : List Cell) (now : Nat)
    (tsOpt : Option Nat) :
    ((queryZonesFull e cells now tsOpt).map (fun ct => ct.1.id)).Perm
      (cells.map Cell.id) := by
  unfold queryZonesFull
  have h1 : ((assignTiers (scoredCells e cells (effectiveTimestamp now tsOpt))).map
      (fun ct : Cell × Tier => ct.1.id))
      = ((assignTiers (scoredCells e cells (effectiveTimestamp now tsOpt))).map
        Prod.fst).map Cell.id := by
    rw [List.map_map]
    rfl
  rw [h1, assignTiers_map_fst]
  have h2 := (List.perm_insertionSort scoreIdLe
    (scoredCells e cells (effectiveTimestamp now tsOpt))).map Prod.fst
  rw [scoredCells_map_fst] at h2
  exact h2.map Cell.id

/-- Claim C3: for every cell, timestamp and radius, a radius query and a
full-region query evaluated at the same timestamp assign the identical
tier to any cell present in both result sets, because classification is
always computed over the full cell population rather than the queried
subset. The cell-identity hypothesis is the spec's Cell invariant
(stable unique keys). -/
theorem radius_query_tier_consistent (e : Engine)
    (d : Rat × Rat → Rat × Rat → Rat) (cells : List Cell)
    (center : Rat × Rat) (r : Rat) (now : Nat) (tsOpt : Option Nat)
    (hids : (cells.map Cell.id).Nodup) (c : Cell) (t1 t2 : Tier)
    (h1 : (c, t1) ∈ queryZones e d cells center r now tsOpt)
    (h2 : (c, t2) ∈ queryZonesFull e cells now tsOpt) : t1 = t2 := by
  have h1' : (c, t1) ∈ queryZonesFull e cells now tsOpt :=
    List.mem_of_mem_filter h1
  have hnd : ((queryZonesFull e cells now tsOpt).map
      (fun ct => ct.1.id)).Nodup :=
    ((queryZonesFull_ids_perm e cells now tsOpt).nodup_iff).mpr hids
  have heq := List.inj_on_of_nodup_map hnd h1' h2 rfl
  exact congrArg Prod.snd heq

/-- Claim C6: for every scoring query in which the timestamp parameter
is omitted, the engine evaluates at a prediction time equal to one hour
after the current time at query evaluation: an omitted-timestamp query
coincides with the same query at timestamp now + 3600 seconds. -/
theorem omitted_timestamp_defaults_one_hour (e : Engine)
    (d : Rat × Rat → Rat × Rat → Rat) (cells : List Cell)
    (center : Rat × Rat) (r : Rat) (now : Nat) :
    queryZones e d cells center r now none
      = queryZones e d cells center r now (some (now + 3600)) ∧
    effectiveTimestamp now none = now + 3600 :=
  ⟨rfl, rfl⟩

/-- Modelled from the spec: feature-vector completeness — the fraction
of expected features with non-default values (the documented default is
0). Backend confidence computation not under src/. -/
def completeness (e : Engine) (cid : Nat) : Rat :=
  ((e.featureNames.countP (fun f => decide (e.featureOf cid f ≠ 0)) : Nat) : Rat)
    / ((e.featureNames.length : Nat) : Rat)

/-- Modelled from the spec: per-cell confidence — a monotone function of
completeness whose value for a fully-populated vector is the default
0.75 (the frontend README shows confidence 0.75 in responses). -/
def confidence (e : Engine) (cid : Nat) : Rat :=
  3 / 4 * completeness e cid

theorem completeness_nonneg (e : Engine) (cid : Nat) :
    0 ≤ completeness e cid := by
  unfold completeness
  positivity

theorem completeness_le_one (e : Engine) (cid : Nat)
    (h : e.featureNames ≠ []) : completeness e cid ≤ 1 := by
  unfold completeness
  have hlen : (0 : Rat) < (e.featureNames.length : Rat) := by
    exact_mod_cast List.length_pos.mpr h
  rw [div_le_one hlen]
  exact_mod_cast List.countP_le_length _

/-- Claim C7: for every cell, the confidence attached to its score lies
in [0, 1], is a monotone function of feature-vector completeness (lower
completeness yields lower confidence), and equals exactly 0.75 for a
fully-populated feature vector. -/
theorem confidence_spec (e : Engine) (cid cid2 : Nat)
    (h : e.featureNames ≠ []) :
    (0 ≤ confidence e cid ∧ confidence e cid ≤ 1) ∧
    (completeness e cid ≤ completeness e cid2 →
      confidence e cid ≤ confidence e cid2) ∧
    ((∀ f ∈ e.featureNames, e.featureOf cid f ≠ 0) →
      confidence e cid = 3 / 4) := by
  refine ⟨⟨?_, ?_⟩, ?_, ?_⟩
  · unfold confidence
    have := completeness_nonneg e cid
    linarith
  · unfold confidence
    have := completeness_le_one e cid h
    linarith
  · intro hmono
    unfold confidence
    linarith
  · intro hfull
    have hlen : (0 : Rat) < (e.featureNames.length : Rat) := by
      exact_mod_cast List.length_pos.mpr h
    have hcount : e.featureNames.countP (fun f => decide (e.featureOf cid f ≠ 0))
        = e.featureNames.length :=
      List.countP_eq_length.mpr (fun f hf => by
        simpa using hfull f hf)
    unfold confidence completeness
    rw [hcount, div_self hlen.ne']
    norm_num

/-- A one-feature engine whose single feature has a non-default value,
used as concrete input to the confidence theorem. -/
def fullFeatureEngine : Engine where
  featureNames := ["bars_count"]
  weight := fun _ => 1 / 4
  featureOf := fun _ _ => 5
  timeMult := fun _ => 1

/-- Witness for C7 at a fully-populated one-feature engine: confidence
is within [0, 1], monotone, and exactly 0.75. -/
theorem confidence_spec_witness :
    (0 ≤ confidence fullFeatureEngine 0 ∧ confidence fullFeatureEngine 0 ≤ 1) ∧
    (completeness fullFeatureEngine 0 ≤ completeness fullFeatureEngine 0 →
      confidence fullFeatureEngine 0 ≤ confidence fullFeatureEngine 0) ∧
    ((∀ f ∈ fullFeatureEngine.featureNames, fullFeatureEngine.featureOf 0 f ≠ 0) →
      confidence fullFeatureEngine 0 = 3 / 4) :=
  confidence_spec fullFeatureEngine 0 0 (by
    unfold fullFeatureEngine
    simp)

/-- ControlPanel.jsx: the radius slider's minimum, `min="0.5"`. -/
def sliderMin : Rat := 1 / 2

/-- ControlPanel.jsx: the radius slider's maximum, `max="50"`. -/
def sliderMax : Rat := 50

/-- ControlPanel.jsx: the radius slider's step, `step="0.5"`. -/
def sliderStep : Rat := 1 / 2

/-- ControlPanel.jsx: the values the radius slider can produce — an HTML
range input emits min + k·step for 0 ≤ k ≤ (max − min)/step = 99. -/
def isSliderValue (r : Rat) : Prop :=
  ∃ k : Nat, k ≤ 99 ∧ r = sliderMin + (k : Rat) * sliderStep

/-- Modelled from the spec: a lower bound on the diagonal of the
configured region boundary (backend config not under src/). The README
documents query bounds of latitude 42.0–43.0 and longitude −74.5 to
−73.5; the haversine diagonal of that rectangle is at least the
great-circle length of one degree of latitude, 3958.8 × π/180 ≈ 69.09
miles, modelled here as the rational lower bound 69. -/
def regionDiagonalLB : Rat := 69

/-- Claim C8: every radius the control panel can submit to queryZones
satisfies the precondition radius ∈ (0, regionDiagonal]: it lies in
[0.5, 50] (the boundary layer's clamping, in 0.5-mile steps) and below
the region-diagonal lower bound; and the core never silently alters the
radius — membership in a queryZones result is exactly full-population
membership plus the unmodified radius test. -/
theorem radius_policy (r : Rat) (h : isSliderValue r) :
    (0 < r ∧ sliderMin ≤ r ∧ r ≤ sliderMax) ∧ r ≤ regionDiagonalLB ∧
    (∀ (e : Engine) (d : Rat × Rat → Rat × Rat → Rat) (cells : List Cell)
      (center : Rat × Rat) (now : Nat) (tsOpt : Option Nat) (c : Cell)
      (t : Tier),
      ((c, t) ∈ queryZones e d cells center r now tsOpt ↔
        (c, t) ∈ queryZonesFull e cells now tsOpt ∧
          d center (c.lat, c.lon) ≤ r)) := by
  obtain ⟨k, hk, rfl⟩ := h
  have hkr : (k : Rat) ≤ 99 := by exact_mod_cast hk
  have hk0 : (0 : Rat) ≤ (k : Rat) := Nat.cast_nonneg k
  refine ⟨⟨?_, ?_, ?_⟩, ?_, ?_⟩
  · unfold sliderMin sliderStep
    nlinarith
  · unfold sliderMin sliderStep
    nlinarith
  · unfold sliderMin sliderMax sliderStep
    nlinarith
  · unfold sliderMin sliderStep regionDiagonalLB
    nlinarith
  · intro e d cells center now tsOpt c t
    unfold queryZones queryZonesFull
    rw [List.mem_filter]
    unfold withinRadius
    rw [decide_eq_true_iff]

/-- Witness for C8 at the slider value 2 miles (k = 3 steps above the
minimum). -/
theorem radius_policy_witness :
    ((0 : Rat) < 2 ∧ sliderMin ≤ 2 ∧ (2 : Rat) ≤ sliderMax) ∧
    (2 : Rat) ≤ regionDiagonalLB ∧
    (∀ (e : Engine) (d : Rat × Rat → Rat × Rat → Rat) (cells : List Cell)
      (center : Rat × Rat) (now : Nat) (tsOpt : Option Nat) (c : Cell)
      (t : Tier),
      ((c, t) ∈ queryZones e d cells center 2 now tsOpt ↔
        (c, t) ∈ queryZonesFull e cells now tsOpt ∧
          d center (c.lat, c.lon) ≤ 2)) :=
  radius_policy 2 ⟨3, by norm_num, by unfold sliderMin sliderStep; norm_num⟩

/-- A concrete squared-distance function used to instantiate the
abstract distance parameter on concrete inputs. -/
def sqDist (p q : Rat × Rat) : Rat :=
  (p.1 - q.1) ^ 2 + (p.2 - q.2) ^ 2

/-- A concrete one-feature engine whose time-adjusted score of a cell
equals its cell id. -/
def demoEngine : Engine where
  featureNames := ["bars_count"]
  weight := fun _ => 1
  featureOf := fun cid _ => (cid : Rat)
  timeMult := fun _ => 1

/-- A concrete three-cell population with distinct identities. -/
def demoCells : List Cell :=
  [⟨1, 0, 0⟩, ⟨2, 1, 0⟩, ⟨3, 2, 0⟩]

/-- A concrete region with boundary latitude 42–43 and longitude −74 to
−73. -/
def demoRegion : Region where
  minLat := 42
  maxLat := 43
  minLon := -74
  maxLon := -73

/-- Witness for C3: the cell with id 1 appears in both a radius-1 query
around the origin and in the full-region query, with the tier Low in
both. -/
theorem radius_query_tier_consistent_witness : Tier.Low = Tier.Low :=
  radius_query_tier_consistent demoEngine sqDist demoCells (0, 0) 1 0 none
    (by decide) ⟨1, 0, 0⟩ Tier.Low Tier.Low
    (by
      norm_num [queryZones, assignTiers, sortScored, scoredCells, adjScore,
        rawScore, demoEngine, demoCells, hourOf, scoreIdLe,
        List.insertionSort, List.orderedInsert, tierOfRank, withinRadius,
        sqDist, effectiveTimestamp, List.enum, List.enumFrom])
    (by
      norm_num [queryZonesFull, assignTiers, sortScored, scoredCells,
        adjScore, rawScore, demoEngine, demoCells, hourOf, scoreIdLe,
        List.insertionSort, List.orderedInsert, tierOfRank,
        effectiveTimestamp, List.enum, List.enumFrom])

/-- Witness for C4: on the three-cell demo population, nearestCell at
the origin returns a closest cell deterministically. -/
theorem nearestCell_minimizes_witness :
    ∃ c, nearestCell sqDist demoCells (0, 0) = some c ∧ c ∈ demoCells ∧
      (∀ c' ∈ demoCells,
        sqDist (0, 0) (c.lat, c.lon) ≤ sqDist (0, 0) (c'.lat, c'.lon)) ∧
      (∀ c' ∈ demoCells,
        sqDist (0, 0) (c'.lat, c'.lon) = sqDist (0, 0) (c.lat, c.lon) →
          c.id ≤ c'.id) ∧
      (∀ c1 c2, nearestCell sqDist demoCells (0, 0) = some c1 →
        nearestCell sqDist demoCells (0, 0) = some c2 → c1.id = c2.id) :=
  nearestCell_minimizes sqDist demoCells (0, 0) (by decide)

/-- Witness for C5: the point (42, −73), exactly on both the
minimum-latitude and maximum-longitude boundary edges of the demo
region, still yields a valid nearest cell. -/
theorem nearestCell_no_boundary_rejection_witness :
    ∃ c, nearestCell sqDist demoCells (42, -73) = some c ∧
      c ∈ demoCells :=
  nearestCell_no_boundary_rejection sqDist demoRegion demoCells
    (42, -73) (by decide) (by
      right
      unfold onBoundaryEdge inRegion demoRegion
      norm_num)
